import Mathlib

/-!
Shallow embedding of the imhotep diff-parsing and line-classification code
(src/imhotep/repositories.py): the unified-diff hunk-header parser
(FileCompare.parse_unified_diff), the patch parser with its position and
line bookkeeping (FileCompare._parse_patch), the position lookup
(FileCompare.get_position_for_line), and the per-dialect source-line
classifiers (SourceCodeLine, PyLine, JsLine).
-/

/-- Python whitespace characters for byte strings: the set split on by
str.split() with no argument and matched by the regex class backslash-s. -/
def isPySpace (c : Char) : Bool :=
  c = ' ' || c = '\t' || c = '\n' || c = '\r' || c = Char.ofNat 11 || c = Char.ofNat 12

/-- Worker for str.splitlines on byte strings: line boundaries are LF, CR and
CRLF, and a trailing boundary does not produce a trailing empty element. -/
def splitlinesAux : List Char → List Char → List String
  | [], acc => if acc.isEmpty then [] else [String.mk acc.reverse]
  | '\r' :: '\n' :: rest, acc => String.mk acc.reverse :: splitlinesAux rest []
  | '\n' :: rest, acc => String.mk acc.reverse :: splitlinesAux rest []
  | '\r' :: rest, acc => String.mk acc.reverse :: splitlinesAux rest []
  | c :: rest, acc => splitlinesAux rest (c :: acc)

/-- str.splitlines, as used on the patch text. -/
def splitlines (s : String) : List String := splitlinesAux s.toList []

/-- Worker for str.split() with no separator: split on runs of whitespace,
discarding empty parts. -/
def splitWSAux : List Char → List Char → List String
  | [], acc => if acc.isEmpty then [] else [String.mk acc.reverse]
  | c :: rest, acc =>
    if isPySpace c then
      if acc.isEmpty then splitWSAux rest []
      else String.mk acc.reverse :: splitWSAux rest []
    else splitWSAux rest (c :: acc)

/-- str.split() with no separator. -/
def pySplitWS (s : String) : List String := splitWSAux s.toList []

/-- Worker for str.split with the one-character comma separator; always
returns at least one (possibly empty) part. -/
def splitCommaAux : List Char → List Char → List String
  | [], acc => [String.mk acc.reverse]
  | ',' :: rest, acc => String.mk acc.reverse :: splitCommaAux rest []
  | c :: rest, acc => splitCommaAux rest (c :: acc)

/-- str.split with the comma separator, as used on the new-range token. -/
def splitComma (s : String) : List String := splitCommaAux s.toList []

/-- Strip a literal character sequence from the front of a list, returning
the remainder exactly when the whole sequence is present. -/
def stripLit : List Char → List Char → Option (List Char)
  | [], l => some l
  | _ :: _, [] => none
  | c :: cs, d :: ds => if c = d then stripLit cs ds else none

/-- str.startswith. -/
def strStartsWith (s p : String) : Bool := (stripLit p.toList s.toList).isSome

/-- str.endswith. -/
def strEndsWith (s p : String) : Bool := (stripLit p.toList.reverse s.toList.reverse).isSome

/-- str.strip(): drop leading and trailing whitespace. -/
def pyStrip (s : String) : String :=
  String.mk (((s.toList.dropWhile isPySpace).reverse.dropWhile isPySpace).reverse)

/-- Accumulate a decimal numeral; any non-digit character fails. -/
def digitsToNatAux : List Char → Nat → Option Nat
  | [], acc => some acc
  | c :: rest, acc =>
    if ('0' ≤ c && c ≤ '9') then digitsToNatAux rest (acc * 10 + (c.toNat - '0'.toNat))
    else none

/-- Python int() applied to a string: optional surrounding whitespace, an
optional sign, then one or more decimal digits; anything else raises
ValueError, modelled as none. -/
def pyInt (s : String) : Option Int :=
  let t := ((s.toList.dropWhile isPySpace).reverse.dropWhile isPySpace).reverse
  match t with
  | '+' :: ds => if ds.isEmpty then none else (digitsToNatAux ds 0).map Int.ofNat
  | '-' :: ds => if ds.isEmpty then none else (digitsToNatAux ds 0).map (fun n => -(n : Int))
  | ds => if ds.isEmpty then none else (digitsToNatAux ds 0).map Int.ofNat

/-- The Python exceptions the embedded code can raise while parsing. -/
inductive PyError
  | valueError (msg : String)
  | indexError
  | keyError
  deriving DecidableEq

/-- FileCompare.parse_unified_diff: returns the (start, count) pair read from
the third whitespace-delimited token of a hunk header line, looking only at
the new state.  A line not starting with the marker raises ValueError; a
missing third token raises IndexError; a comma-split of length other than one
or two raises ValueError; a non-integer part raises ValueError. -/
def parse_unified_diff (diffline : String) : Except PyError (Int × Option Int) :=
  if strStartsWith diffline "@@ " then
    match (pySplitWS diffline).get? 2 with
    | none => Except.error PyError.indexError
    | some tok =>
      match splitComma tok with
      | [s1, s2] =>
        match pyInt s1 with
        | none => Except.error (PyError.valueError ("invalid literal for int: " ++ s1))
        | some a =>
          match pyInt s2 with
          | none => Except.error (PyError.valueError ("invalid literal for int: " ++ s2))
          | some b => Except.ok (a, some b)
      | [s1] =>
        match pyInt s1 with
        | none => Except.error (PyError.valueError ("invalid literal for int: " ++ s1))
        | some a => Except.ok (a, none)
      | _ => Except.error (PyError.valueError ("Unexpected diff line: " ++ diffline))
  else
    Except.error (PyError.valueError ("Bad unified diff line: " ++ diffline))

/-- A classified source line: the PyLine and JsLine subclasses of
SourceCodeLine, tagged by dialect, each holding the line text. -/
inductive SourceCodeLine
  | py (text : String)
  | js (text : String)
  deriving DecidableEq

/-- The text attribute shared by all SourceCodeLine subclasses. -/
def SourceCodeLine.text : SourceCodeLine → String
  | .py t => t
  | .js t => t

/-- SourceCodeLine.from_line: dialect dispatch on the filename suffix; none
models the UnknownSourceType exception raised for other suffixes. -/
def SourceCodeLine.from_line (filename text : String) : Option SourceCodeLine :=
  if strEndsWith filename ".py" then some (.py text)
  else if strEndsWith filename ".js" then some (.js text)
  else none

/-- Characters of the regex class with lower-case letters, underscore and
digits, used for the identifier in the PyLine patterns. -/
def isPyIdent (c : Char) : Bool :=
  ('a' ≤ c && c ≤ 'z') || c = '_' || ('0' ≤ c && c ≤ '9')

/-- Existence of a match for the regex tail of the PyLine patterns: dot-star,
close-paren, colon.  True exactly when the close-paren colon pair occurs with
no newline before it (dot does not match a newline). -/
def findParenColon : List Char → Bool
  | ')' :: ':' :: _ => true
  | c :: rest => if c = '\n' then false else findParenColon rest
  | [] => false

/-- Boolean of re.match with PyLine.FUNC_DEF_REX: optional leading
whitespace, the word def with a space, a nonempty identifier, an opening
paren, dot-star, close-paren, colon.  Match existence is unaffected by lazy
or greedy repetition, so each piece is consumed deterministically. -/
def pyFuncDefMatch (text : String) : Bool :=
  match stripLit "def ".toList (text.toList.dropWhile isPySpace) with
  | none => false
  | some r =>
    !(r.takeWhile isPyIdent).isEmpty &&
      match r.dropWhile isPyIdent with
      | '(' :: r2 => findParenColon r2
      | _ => false

/-- Boolean of re.match with PyLine.TEST_DEF_REX: as the function pattern but
with the literal test_ after the def keyword, before the identifier. -/
def pyTestDefMatch (text : String) : Bool :=
  match stripLit "def test_".toList (text.toList.dropWhile isPySpace) with
  | none => false
  | some r =>
    !(r.takeWhile isPyIdent).isEmpty &&
      match r.dropWhile isPyIdent with
      | '(' :: r2 => findParenColon r2
      | _ => false

/-- Characters of the JsLine class pattern: word characters or a literal
plus sign (the plus stands inside the character class). -/
def isWordOrPlus (c : Char) : Bool :=
  ('a' ≤ c && c ≤ 'z') || ('A' ≤ c && c ≤ 'Z') || ('0' ≤ c && c ≤ '9') || c = '_' || c = '+'

/-- Boolean of re.match with JsLine.FUNC_DEF_REX: optional leading
whitespace, the word function with a space, then the character class of word
characters and plus — which matches exactly one character — then an opening
paren. -/
def jsFuncDefMatch (text : String) : Bool :=
  match stripLit "function ".toList (text.toList.dropWhile isPySpace) with
  | none => false
  | some r =>
    match r with
    | c :: '(' :: _ => isWordOrPlus c
    | _ => false

/-- Boolean of re.match with JsLine.TEST_DEF_REX: the line starts with the
text test followed by an opening paren. -/
def jsTestDefMatch (text : String) : Bool := strStartsWith text "test("

/-- SourceCodeLine.is_function_definition, dispatching on the dialect. -/
def SourceCodeLine.is_function_definition : SourceCodeLine → Bool
  | .py t => pyFuncDefMatch t
  | .js t => jsFuncDefMatch t

/-- SourceCodeLine.is_test_definition, dispatching on the dialect. -/
def SourceCodeLine.is_test_definition : SourceCodeLine → Bool
  | .py t => pyTestDefMatch t
  | .js t => jsTestDefMatch t

/-- PyLine.is_named_function and JsLine.is_named_function: the stripped text
starts with the dialect keyword, the name and an opening paren. -/
def SourceCodeLine.is_named_function : SourceCodeLine → String → Bool
  | .py t, name => strStartsWith (pyStrip t) ("def " ++ name ++ "(")
  | .js t, name => strStartsWith (pyStrip t) ("function " ++ name ++ "(")

/-- Python dict assignment, modelled as a cons paired with first-match
lookup; lookup behaviour agrees with overwrite-in-place. -/
def dictInsert {K V : Type} (m : List (K × V)) (k : K) (v : V) : List (K × V) :=
  (k, v) :: m

/-- Python dict lookup: the most recently inserted binding for the key. -/
def dictGet {K V : Type} [DecidableEq K] : List (K × V) → K → Option V
  | [], _ => none
  | (k1, v) :: rest, k => if k = k1 then some v else dictGet rest k

/-- The local state of FileCompare._parse_patch: the current hunk start line,
the two offset counters and the three dictionaries.  The count from the hunk
header is assigned but never read, so it is not part of the state.  recorded
is a ghost trace listing, in order, every (line_num, position_num,
source_line) triple inserted into the three dictionaries; it is used only to
state properties about recorded added lines. -/
structure ParseState where
  start_line : Int
  line_offset : Nat
  position_offset : Nat
  modified_positions : List (Nat × SourceCodeLine)
  modified_lines : List (Int × SourceCodeLine)
  positions_by_line : List (Int × Nat)
  recorded : List (Int × Nat × SourceCodeLine)
  deriving DecidableEq

/-- The parser state right after the first hunk header has been parsed: empty
dictionaries, both offsets zero. -/
def initState (st : Int) : ParseState := ⟨st, 0, 0, [], [], [], []⟩

/-- One iteration of the body loop of FileCompare._parse_patch.  A hunk
header refreshes start_line and resets line_offset; indexing the first
character of an empty line raises IndexError; an added line of unknown
dialect hits the continue statement, skipping the rest of the iteration
including both offset increments; otherwise added lines are recorded and the
offsets advance as in the source. -/
def parseLine (filename : String) (s : ParseState) (line : String) :
    Except PyError ParseState :=
  if strStartsWith line "@@ " then
    match parse_unified_diff line with
    | Except.error e => Except.error e
    | Except.ok (st, _) =>
      Except.ok { s with start_line := st, line_offset := 0,
                         position_offset := s.position_offset + 1 }
  else
    match line.toList with
    | [] => Except.error PyError.indexError
    | c :: restChars =>
      if c = '+' then
        match SourceCodeLine.from_line filename (String.mk restChars) with
        | none => Except.ok s
        | some source_line =>
          Except.ok { s with
            modified_positions := dictInsert s.modified_positions
              (s.position_offset + 1) source_line,
            modified_lines := dictInsert s.modified_lines
              (s.start_line + (s.line_offset : Int)) source_line,
            positions_by_line := dictInsert s.positions_by_line
              (s.start_line + (s.line_offset : Int)) (s.position_offset + 1),
            recorded := s.recorded ++
              [(s.start_line + (s.line_offset : Int), s.position_offset + 1, source_line)],
            line_offset := s.line_offset + 1,
            position_offset := s.position_offset + 1 }
      else if c = '-' then
        Except.ok { s with position_offset := s.position_offset + 1 }
      else
        Except.ok { s with line_offset := s.line_offset + 1,
                           position_offset := s.position_offset + 1 }

/-- The body loop of FileCompare._parse_patch over the lines after the first,
threading the state and propagating any raised exception. -/
def parseBody (filename : String) : ParseState → List String → Except PyError ParseState
  | s, [] => Except.ok s
  | s, l :: ls =>
    match parseLine filename s l with
    | Except.error e => Except.error e
    | Except.ok s1 => parseBody filename s1 ls

/-- FileCompare._parse_patch: empty or absent patch text leaves all three
dictionaries empty; otherwise the first line is parsed as a hunk header
(doubling as the assertion that the patch is in unified diff format) and the
remaining lines are processed by the body loop. -/
def parse_patch (filename : String) (patch : Option String) : Except PyError ParseState :=
  match patch with
  | none => Except.ok (initState 0)
  | some p =>
    if p = "" then Except.ok (initState 0)
    else
      match splitlines p with
      | [] => Except.error PyError.indexError
      | l0 :: body =>
        match parse_unified_diff l0 with
        | Except.error e => Except.error e
        | Except.ok (st, _) => parseBody filename (initState st) body

/-- FileCompare.get_position_for_line: a plain dictionary lookup in
positions_by_line; a missing key raises KeyError. -/
def get_position_for_line (s : ParseState) (line_num : Int) : Except PyError Nat :=
  match dictGet s.positions_by_line line_num with
  | some p => Except.ok p
  | none => Except.error PyError.keyError

/-- Whether a computation returned a value instead of raising. -/
def exceptOk {ε α : Type} : Except ε α → Bool
  | Except.ok _ => true
  | Except.error _ => false

/-- The three dictionaries agree on one recorded (line_num, position_num,
source_line) triple: positions_by_line sends the line number to the
position, and both content dictionaries hold the same classified line. -/
def agreesAt (s : ParseState) (t : Int × Nat × SourceCodeLine) : Prop :=
  dictGet s.positions_by_line t.1 = some t.2.1 ∧
  dictGet s.modified_lines t.1 = some t.2.2 ∧
  dictGet s.modified_positions t.2.1 = some t.2.2

/-- The end-to-end example patch for a Python file: one context line, one
added nested function definition, one more context line. -/
def pyExamplePatch : String := "@@ -1,2 +1,3 @@\n def foo():\n+    def bar():\n     pass"

/-- The state produced by parsing pyExamplePatch for a file named with the
Python suffix. -/
def pyExampleState : ParseState :=
  ⟨1, 3, 3, [(2, SourceCodeLine.py "    def bar():")],
   [(2, SourceCodeLine.py "    def bar():")], [(2, 2)],
   [(2, 2, SourceCodeLine.py "    def bar():")]⟩

/-- A patch with two hunks, the second starting at new-file line 10. -/
def twoHunkPatch : String := "@@ -1,1 +1,1 @@\n+a\n@@ -5,1 +10,1 @@\n+b"

/-- The state produced by parsing twoHunkPatch for a Python file. -/
def twoHunkState : ParseState :=
  ⟨10, 1, 3, [(3, SourceCodeLine.py "b"), (1, SourceCodeLine.py "a")],
   [(10, SourceCodeLine.py "b"), (1, SourceCodeLine.py "a")],
   [(10, 3), (1, 1)],
   [(1, 1, SourceCodeLine.py "a"), (10, 3, SourceCodeLine.py "b")]⟩

/-- The example patch with a removed line before the added line. -/
def removedExamplePatch : String := "@@ -1,2 +1,2 @@\n-old()\n+new()\n keep()"

/-- The state produced by parsing removedExamplePatch for a Python file. -/
def removedExampleState : ParseState :=
  ⟨1, 2, 3, [(2, SourceCodeLine.py "new()")], [(1, SourceCodeLine.py "new()")],
   [(1, 2)], [(1, 2, SourceCodeLine.py "new()")]⟩

/-- A patch whose two hunks both start at new-file line 1, so the same line
number is recorded twice. -/
def overlapPatch : String := "@@ -1 +1 @@\n+a\n@@ -1 +1 @@\n+b"

/-- The state produced by parsing overlapPatch for a Python file: the line
keyed dictionaries keep only the later binding for line 1, while the stale
position 1 entry survives in modified_positions. -/
def overlapState : ParseState :=
  ⟨1, 1, 3, [(3, SourceCodeLine.py "b"), (1, SourceCodeLine.py "a")],
   [(1, SourceCodeLine.py "b"), (1, SourceCodeLine.py "a")],
   [(1, 3), (1, 1)],
   [(1, 1, SourceCodeLine.py "a"), (1, 3, SourceCodeLine.py "b")]⟩

/-- A small state whose positions_by_line holds exactly one binding. -/
def lookupExampleState : ParseState := ⟨1, 0, 0, [], [], [(5, 7)], []⟩

/-! Helper lemmas about the embedded operations. -/

theorem stripLit_eq_append : ∀ (p l r : List Char), stripLit p l = some r → l = p ++ r := by
  intro p
  induction p with
  | nil => intro l r h; simpa [stripLit] using h
  | cons c cs ih =>
    intro l r h
    cases l with
    | nil => simp [stripLit] at h
    | cons d ds =>
      by_cases hc : c = d
      · subst hc
        simp only [stripLit, if_pos rfl] at h
        have := ih ds r h
        simp [this]
      · simp [stripLit, hc] at h

theorem stripLit_append_self : ∀ (p r : List Char), stripLit p (p ++ r) = some r := by
  intro p
  induction p with
  | nil => intro r; simp [stripLit]
  | cons c cs ih => intro r; simp [stripLit, ih]

theorem dictGet_insert_self {K V : Type} [DecidableEq K] (m : List (K × V)) (k : K) (v : V) :
    dictGet (dictInsert m k v) k = some v := by
  simp [dictInsert, dictGet]

theorem dictGet_insert_ne {K V : Type} [DecidableEq K] (m : List (K × V)) (k k1 : K) (v : V)
    (h : k ≠ k1) : dictGet (dictInsert m k1 v) k = dictGet m k := by
  simp [dictInsert, dictGet, h]

/-- Every successful body iteration yields one of five state shapes: header
refresh, unknown-dialect skip, recorded added line, removed line, context
line. -/
theorem parseLine_cases (fn : String) (s : ParseState) (l : String) (s1 : ParseState)
    (h : parseLine fn s l = Except.ok s1) :
    (∃ st, s1 = { s with start_line := st, line_offset := 0,
                         position_offset := s.position_offset + 1 }) ∨
    s1 = s ∨
    (∃ sl, s1 = { s with
        modified_positions := dictInsert s.modified_positions (s.position_offset + 1) sl,
        modified_lines := dictInsert s.modified_lines (s.start_line + (s.line_offset : Int)) sl,
        positions_by_line := dictInsert s.positions_by_line
          (s.start_line + (s.line_offset : Int)) (s.position_offset + 1),
        recorded := s.recorded ++
          [(s.start_line + (s.line_offset : Int), s.position_offset + 1, sl)],
        line_offset := s.line_offset + 1,
        position_offset := s.position_offset + 1 }) ∨
    s1 = { s with position_offset := s.position_offset + 1 } ∨
    s1 = { s with line_offset := s.line_offset + 1,
                  position_offset := s.position_offset + 1 } := by
  unfold parseLine at h
  split at h
  · split at h
    · cases h
    · rename_i st cnt heq
      simp only [Except.ok.injEq] at h
      exact Or.inl ⟨st, h.symm⟩
  · split at h
    · cases h
    · rename_i c restChars heq
      split at h
      · split at h
        · simp only [Except.ok.injEq] at h
          exact Or.inr (Or.inl h.symm)
        · rename_i sl heq2
          simp only [Except.ok.injEq] at h
          exact Or.inr (Or.inr (Or.inl ⟨sl, h.symm⟩))
      · split at h
        · simp only [Except.ok.injEq] at h
          exact Or.inr (Or.inr (Or.inr (Or.inl h.symm)))
        · simp only [Except.ok.injEq] at h
          exact Or.inr (Or.inr (Or.inr (Or.inr h.symm)))

/-- position_offset never decreases across one body iteration. -/
theorem parseLine_pos_mono (fn : String) (s : ParseState) (l : String) (s1 : ParseState)
    (h : parseLine fn s l = Except.ok s1) :
    s.position_offset ≤ s1.position_offset := by
  rcases parseLine_cases fn s l s1 h with ⟨st, rfl⟩ | rfl | ⟨sl, rfl⟩ | rfl | rfl <;> simp

/-- The recorded trace only ever grows across one body iteration. -/
theorem parseLine_recorded_mono (fn : String) (s : ParseState) (l : String) (s1 : ParseState)
    (h : parseLine fn s l = Except.ok s1) :
    ∃ tl, s1.recorded = s.recorded ++ tl := by
  rcases parseLine_cases fn s l s1 h with ⟨st, rfl⟩ | rfl | ⟨sl, rfl⟩ | rfl | rfl
  · exact ⟨[], by simp⟩
  · exact ⟨[], by simp⟩
  · exact ⟨[(s.start_line + (s.line_offset : Int), s.position_offset + 1, sl)], by simp⟩
  · exact ⟨[], by simp⟩
  · exact ⟨[], by simp⟩

/-- The recorded trace only ever grows across the whole body loop. -/
theorem parseBody_recorded_mono (fn : String) (ls : List String) :
    ∀ (s s1 : ParseState), parseBody fn s ls = Except.ok s1 →
      ∃ tl, s1.recorded = s.recorded ++ tl := by
  induction ls with
  | nil =>
    intro s s1 h
    simp only [parseBody, Except.ok.injEq] at h
    exact ⟨[], by simp [h]⟩
  | cons l ls ih =>
    intro s s1 h
    simp only [parseBody] at h
    cases hl : parseLine fn s l with
    | error e => rw [hl] at h; cases h
    | ok s2 =>
      rw [hl] at h
      obtain ⟨tl1, h1⟩ := parseLine_recorded_mono fn s l s2 hl
      obtain ⟨tl2, h2⟩ := ih s2 s1 h
      exact ⟨tl1 ++ tl2, by rw [h2, h1, List.append_assoc]⟩

/-- One body iteration preserves the position bound and, when the enlarged
trace still has pairwise distinct line numbers, the agreement of the three
dictionaries with every recorded triple. -/
theorem parseLine_inv (fn : String) (s : ParseState) (l : String) (s1 : ParseState)
    (h : parseLine fn s l = Except.ok s1)
    (hP : ∀ t ∈ s.recorded, t.2.1 ≤ s.position_offset)
    (hA : ∀ t ∈ s.recorded, agreesAt s t)
    (hnd : (s1.recorded.map (fun t => t.1)).Nodup) :
    (∀ t ∈ s1.recorded, t.2.1 ≤ s1.position_offset) ∧
    (∀ t ∈ s1.recorded, agreesAt s1 t) := by
  rcases parseLine_cases fn s l s1 h with ⟨st, rfl⟩ | rfl | ⟨sl, rfl⟩ | rfl | rfl
  · exact ⟨fun t ht => Nat.le_succ_of_le (hP t ht), fun t ht => hA t ht⟩
  · exact ⟨hP, hA⟩
  · constructor
    · intro t ht
      simp only [List.mem_append, List.mem_singleton] at ht
      rcases ht with ht | rfl
      · exact Nat.le_succ_of_le (hP t ht)
      · simp
    · have hfresh : ∀ t ∈ s.recorded, t.1 ≠ s.start_line + (s.line_offset : Int) := by
        intro t ht heq
        simp only [List.map_append, List.map_cons, List.map_nil] at hnd
        have hdisj := (List.nodup_append.mp hnd).2.2
        exact hdisj (List.mem_map_of_mem _ ht) (by simp [heq])
      intro t ht
      simp only [List.mem_append, List.mem_singleton] at ht
      rcases ht with ht | rfl
      · obtain ⟨h1, h2, h3⟩ := hA t ht
        refine ⟨?_, ?_, ?_⟩
        · simpa [dictGet_insert_ne _ _ _ _ (hfresh t ht)] using h1
        · simpa [dictGet_insert_ne _ _ _ _ (hfresh t ht)] using h2
        · have hlt : t.2.1 ≠ s.position_offset + 1 := by
            have := hP t ht
            omega
          simpa [dictGet_insert_ne _ _ _ _ hlt] using h3
      · exact ⟨dictGet_insert_self _ _ _, dictGet_insert_self _ _ _,
          dictGet_insert_self _ _ _⟩
  · exact ⟨fun t ht => Nat.le_succ_of_le (hP t ht), fun t ht => hA t ht⟩
  · exact ⟨fun t ht => Nat.le_succ_of_le (hP t ht), fun t ht => hA t ht⟩

/-- The body loop preserves the position bound and the three-way agreement
when the final trace has pairwise distinct line numbers. -/
theorem parseBody_inv (fn : String) (ls : List String) :
    ∀ (s s1 : ParseState), parseBody fn s ls = Except.ok s1 →
    (∀ t ∈ s.recorded, t.2.1 ≤ s.position_offset) →
    (∀ t ∈ s.recorded, agreesAt s t) →
    (s1.recorded.map (fun t => t.1)).Nodup →
    (∀ t ∈ s1.recorded, t.2.1 ≤ s1.position_offset) ∧
    (∀ t ∈ s1.recorded, agreesAt s1 t) := by
  induction ls with
  | nil =>
    intro s s1 h hP hA _
    simp only [parseBody, Except.ok.injEq] at h
    subst h
    exact ⟨hP, hA⟩
  | cons l ls ih =>
    intro s s1 h hP hA hnd
    simp only [parseBody] at h
    cases hl : parseLine fn s l with
    | error e => rw [hl] at h; cases h
    | ok s2 =>
      rw [hl] at h
      obtain ⟨tl, htl⟩ := parseBody_recorded_mono fn ls s2 s1 h
      have hnd2 : (s2.recorded.map (fun t => t.1)).Nodup := by
        rw [htl, List.map_append] at hnd
        exact hnd.of_append_left
      obtain ⟨hP2, hA2⟩ := parseLine_inv fn s l s2 hl hP hA hnd2
      exact ih s2 s1 h hP2 hA2 hnd

/-- A body line that is non-empty and, when it carries the hunk marker,
parses as a valid header, never makes the iteration raise. -/
theorem parseLine_ok (fn : String) (s : ParseState) (l : String)
    (hne : l.toList ≠ [])
    (hh : strStartsWith l "@@ " = true → exceptOk (parse_unified_diff l) = true) :
    exceptOk (parseLine fn s l) = true := by
  unfold parseLine
  split
  · rename_i hsw
    have h2 := hh hsw
    cases hpu : parse_unified_diff l with
    | error e => rw [hpu] at h2; simp [exceptOk] at h2
    | ok v =>
      obtain ⟨st, cnt⟩ := v
      simp [exceptOk]
  · split
    · rename_i heq; exact absurd heq hne
    · rename_i c restChars heq
      split
      · split <;> simp [exceptOk]
      · split <;> simp [exceptOk]

/-- A non-empty body line that carries neither the hunk marker nor a leading
plus or minus is treated as a context line: both offsets advance and nothing
is recorded. -/
theorem parseLine_context (fn : String) (s : ParseState) (l : String) (c : Char)
    (cs : List Char) (hl : l.toList = c :: cs)
    (hplus : c ≠ '+') (hminus : c ≠ '-')
    (hsw : strStartsWith l "@@ " = false) :
    parseLine fn s l = Except.ok { s with line_offset := s.line_offset + 1,
                                          position_offset := s.position_offset + 1 } := by
  unfold parseLine
  rw [hsw]
  simp only [Bool.false_eq_true, if_false]
  rw [hl]
  simp [hplus, hminus]

/-! Claim theorems. -/

/-- C4: for a file with the Python suffix and the end-to-end example patch,
parsing records exactly one added line, at line_number 2 and position 2, with
text of the nested definition, classified as the Python dialect, for which
is_function_definition is true and is_named_function with the name bar is
true. -/
theorem c4_end_to_end_python_example :
    parse_patch "f.py" (some pyExamplePatch) = Except.ok pyExampleState ∧
    pyExampleState.recorded = [(2, 2, SourceCodeLine.py "    def bar():")] ∧
    (SourceCodeLine.py "    def bar():").text = "    def bar():" ∧
    SourceCodeLine.is_function_definition (SourceCodeLine.py "    def bar():") = true ∧
    SourceCodeLine.is_named_function (SourceCodeLine.py "    def bar():") "bar" = true :=
  ⟨rfl, rfl, rfl, rfl, rfl⟩

/-- C9: the JavaScript function-definition regex uses a character class
containing the word characters and a literal plus, which matches exactly one
character, so the line with the multi-character name foobar does not match,
even though is_named_function accepts it; a single-character name does
match.  This refutes the claim that one-or-more word characters match. -/
theorem c9_js_function_class_single_char :
    SourceCodeLine.is_function_definition (SourceCodeLine.js "function foobar(x) \x7b") = false ∧
    SourceCodeLine.is_named_function (SourceCodeLine.js "function foobar(x) \x7b") "foobar" = true ∧
    SourceCodeLine.is_function_definition (SourceCodeLine.js "function f(x) \x7b") = true ∧
    SourceCodeLine.is_function_definition (SourceCodeLine.js "    function h() \x7b") = true :=
  ⟨rfl, rfl, rfl, rfl⟩

/-- C7: get_position_for_line returns the binding stored in positions_by_line
when the line number is present, and raises KeyError for every line number
not present; it never returns a nearby position. -/
theorem c7_get_position (s : ParseState) (ln : Int) :
    (∀ p, dictGet s.positions_by_line ln = some p →
        get_position_for_line s ln = Except.ok p) ∧
    (dictGet s.positions_by_line ln = none →
        get_position_for_line s ln = Except.error PyError.keyError) := by
  constructor
  · intro p hp
    unfold get_position_for_line
    rw [hp]
  · intro hp
    unfold get_position_for_line
    rw [hp]

/-- Witness for C7 at a concrete state with one binding. -/
theorem c7_get_position_witness :
    get_position_for_line lookupExampleState 5 = Except.ok 7 ∧
    get_position_for_line lookupExampleState 6 = Except.error PyError.keyError :=
  ⟨(c7_get_position lookupExampleState 5).1 7 rfl,
   (c7_get_position lookupExampleState 6).2 rfl⟩

/-- C2 counterexample: for the file foo.txt with no registered classifier,
the added line hits the continue statement and the iteration returns the
state unchanged — both offsets stay 0 — which differs from the state the
claim requires, where both offsets advance to 1; over the whole two-line
patch both offsets finish at 0 instead of 2. -/
theorem c2_skip_counterexample :
    parseLine "foo.txt" (initState 1) "+a" = Except.ok (initState 1) ∧
    parse_patch "foo.txt" (some "@@ -1,0 +1,2 @@\n+a\n+b") = Except.ok (initState 1) ∧
    (initState 1).line_offset = 0 ∧ (initState 1).position_offset = 0 ∧
    initState 1 ≠ { initState 1 with line_offset := 1, position_offset := 1 } :=
  ⟨rfl, rfl, rfl, rfl, by decide⟩

/-- C2 amended: an added line whose filename extension has no registered
classifier is omitted from all three dictionaries and is not an error, but
the continue statement also skips the offset bookkeeping, so neither
line_offset nor position_offset advances for that line: the iteration
returns the state unchanged. -/
theorem c2_unknown_dialect_skips_offsets (fn : String) (s : ParseState) (line : String)
    (h1 : line.toList.head? = some '+')
    (h2 : SourceCodeLine.from_line fn (String.mk line.toList.tail) = none) :
    parseLine fn s line = Except.ok s := by
  cases hl : line.toList with
  | nil => rw [hl] at h1; cases h1
  | cons c cs =>
    rw [hl] at h1
    simp only [List.head?_cons, Option.some.injEq] at h1
    subst h1
    have hsw : strStartsWith line "@@ " = false := by
      unfold strStartsWith
      rw [hl]
      rfl
    unfold parseLine
    rw [hsw]
    simp only [Bool.false_eq_true, if_false]
    rw [hl]
    rw [hl] at h2
    simp only [List.tail_cons] at h2
    simp [h2]

/-- Witness for the amended C2 at the concrete unknown-suffix input. -/
theorem c2_unknown_dialect_skips_offsets_witness :
    parseLine "foo.txt" (initState 1) "+a" = Except.ok (initState 1) :=
  c2_unknown_dialect_skips_offsets "foo.txt" (initState 1) "+a" rfl rfl

/-- C3: a body line whose first character is the minus sign is never
recorded in any dictionary and does not advance line_offset, while
position_offset still advances by one; on the example patch, new() is
recorded at line_number 1 and position 2, and keep() is not recorded. -/
theorem c3_removed_lines (fn : String) (s : ParseState) (line : String)
    (h : line.toList.head? = some '-') :
    parseLine fn s line = Except.ok { s with position_offset := s.position_offset + 1 } ∧
    parse_patch "m.py" (some removedExamplePatch) = Except.ok removedExampleState ∧
    removedExampleState.recorded = [(1, 2, SourceCodeLine.py "new()")] ∧
    dictGet removedExampleState.modified_lines 1 = some (SourceCodeLine.py "new()") ∧
    dictGet removedExampleState.positions_by_line 1 = some 2 ∧
    dictGet removedExampleState.modified_positions 2 = some (SourceCodeLine.py "new()") := by
  refine ⟨?_, rfl, rfl, rfl, rfl, rfl⟩
  cases hl : line.toList with
  | nil => rw [hl] at h; cases h
  | cons c cs =>
    rw [hl] at h
    simp only [List.head?_cons, Option.some.injEq] at h
    subst h
    have hsw : strStartsWith line "@@ " = false := by
      unfold strStartsWith
      rw [hl]
      rfl
    unfold parseLine
    rw [hsw]
    simp only [Bool.false_eq_true, if_false]
    rw [hl]
    simp

/-- Witness for C3 at a concrete removed line and state. -/
theorem c3_removed_lines_witness :
    parseLine "z.py" (initState 5) "-gone"
      = Except.ok { initState 5 with position_offset := 1 } ∧
    parse_patch "m.py" (some removedExamplePatch) = Except.ok removedExampleState :=
  ⟨(c3_removed_lines "z.py" (initState 5) "-gone" rfl).1,
   (c3_removed_lines "z.py" (initState 5) "-gone" rfl).2.1⟩

/-- C5 counterexample: on the overlapping-hunk patch the same line number 1
is recorded twice; for the first recorded added line (line 1, position 1)
the dictionary positions_by_line maps line 1 to 3, not to 1, and
modified_positions at position 1 holds the first line while modified_lines
at line 1 holds the second — the three mappings disagree. -/
theorem c5_agreement_counterexample :
    parse_patch "x.py" (some overlapPatch) = Except.ok overlapState ∧
    (1, 1, SourceCodeLine.py "a") ∈ overlapState.recorded ∧
    dictGet overlapState.positions_by_line 1 = some 3 ∧
    (3 : Nat) ≠ 1 ∧
    dictGet overlapState.modified_positions 1 = some (SourceCodeLine.py "a") ∧
    dictGet overlapState.modified_lines 1 = some (SourceCodeLine.py "b") ∧
    SourceCodeLine.py "a" ≠ SourceCodeLine.py "b" :=
  ⟨rfl, by decide, rfl, by decide, rfl, rfl, by decide⟩

/-- C1: a subsequent body line carrying the hunk marker re-parses the header
to refresh start_line and resets line_offset to 0 while position_offset
advances by exactly one slot and the dictionaries are untouched; every body
iteration is position-monotone; on the concrete two-hunk patch the second
added line is recorded at line 10 with position 3, the final position count
equals the number of body lines, and parsing hands exactly the lines after
the first to the body loop with the position count starting at zero. -/
theorem c1_subsequent_hunk_headers (fn : String) (s : ParseState) (line : String)
    (st : Int) (cnt : Option Int)
    (hm : strStartsWith line "@@ " = true)
    (hp : parse_unified_diff line = Except.ok (st, cnt)) :
    parseLine fn s line = Except.ok { s with start_line := st, line_offset := 0,
                                             position_offset := s.position_offset + 1 } ∧
    (∀ (fn1 : String) (t : ParseState) (l : String) (t1 : ParseState),
        parseLine fn1 t l = Except.ok t1 → t.position_offset ≤ t1.position_offset) ∧
    (parse_patch "a.py" (some twoHunkPatch) = Except.ok twoHunkState ∧
      twoHunkState.positions_by_line = [(10, 3), (1, 1)] ∧
      twoHunkState.position_offset = 3) ∧
    (∀ (fn2 p l0 : String) (body : List String) (st2 : Int) (cnt2 : Option Int),
        p ≠ "" → splitlines p = l0 :: body →
        parse_unified_diff l0 = Except.ok (st2, cnt2) →
        parse_patch fn2 (some p) = parseBody fn2 (initState st2) body) := by
  refine ⟨?_, parseLine_pos_mono, ⟨rfl, rfl, rfl⟩, ?_⟩
  · unfold parseLine
    rw [hm]
    simp only [if_true]
    rw [hp]
  · intro fn2 p l0 body st2 cnt2 hne hsp hpu
    unfold parse_patch
    dsimp only
    rw [if_neg hne, hsp]
    dsimp only
    rw [hpu]

/-- Witness for C1: a concrete header line applied to a concrete state, plus
the instantiated monotonicity and the concrete two-hunk results. -/
theorem c1_subsequent_hunk_headers_witness :
    parseLine "a.py" (initState 1) "@@ -4,2 +7,2 @@"
      = Except.ok { initState 1 with start_line := 7, line_offset := 0,
                                     position_offset := 1 } ∧
    (initState 1).position_offset ≤ 1 ∧
    parse_patch "a.py" (some twoHunkPatch) = Except.ok twoHunkState ∧
    parse_patch "a.py" (some twoHunkPatch)
      = parseBody "a.py" (initState 1) ["+a", "@@ -5,1 +10,1 @@", "+b"] := by
  have h := c1_subsequent_hunk_headers "a.py" (initState 1) "@@ -4,2 +7,2 @@" 7 (some 2)
    rfl rfl
  refine ⟨h.1, ?_, h.2.2.1.1, ?_⟩
  · exact h.2.1 "a.py" (initState 1) "@@ -4,2 +7,2 @@" _ h.1
  · exact h.2.2.2 "a.py" twoHunkPatch "@@ -1,1 +1,1 @@" ["+a", "@@ -5,1 +10,1 @@", "+b"]
      1 (some 1) (by decide) rfl rfl

/-- C6: the hunk-header parser takes the third whitespace-delimited token and
splits it on the comma: one part gives no count and that part as the start
line; two parts give start line and count; a line without the marker, an
empty comma-split, or more than two parts all fail with an error instead of
returning a result. -/
theorem c6_hunk_header_shapes (line : String) :
    (strStartsWith line "@@ " = false → exceptOk (parse_unified_diff line) = false) ∧
    (∀ tok : String, strStartsWith line "@@ " = true →
      (pySplitWS line).get? 2 = some tok →
      ((∀ (s1 : String) (n : Int), splitComma tok = [s1] → pyInt s1 = some n →
          parse_unified_diff line = Except.ok (n, none)) ∧
       (∀ (s1 s2 : String) (a b : Int), splitComma tok = [s1, s2] →
          pyInt s1 = some a → pyInt s2 = some b →
          parse_unified_diff line = Except.ok (a, some b)) ∧
       (splitComma tok = [] → exceptOk (parse_unified_diff line) = false) ∧
       (2 < (splitComma tok).length → exceptOk (parse_unified_diff line) = false))) := by
  constructor
  · intro hm
    unfold parse_unified_diff
    rw [hm]
    simp [exceptOk]
  · intro tok hm htok
    have hbase : parse_unified_diff line =
        (match splitComma tok with
         | [s1, s2] =>
           match pyInt s1 with
           | none => Except.error (PyError.valueError ("invalid literal for int: " ++ s1))
           | some a =>
             match pyInt s2 with
             | none => Except.error (PyError.valueError ("invalid literal for int: " ++ s2))
             | some b => Except.ok (a, some b)
         | [s1] =>
           match pyInt s1 with
           | none => Except.error (PyError.valueError ("invalid literal for int: " ++ s1))
           | some a => Except.ok (a, none)
         | _ => Except.error (PyError.valueError ("Unexpected diff line: " ++ line))) := by
      unfold parse_unified_diff
      rw [hm]
      simp only [if_true]
      rw [htok]
    refine ⟨?_, ?_, ?_, ?_⟩
    · intro s1 n hsp hint
      rw [hbase, hsp]
      dsimp only
      rw [hint]
    · intro s1 s2 a b hsp h1 h2
      rw [hbase, hsp]
      dsimp only
      rw [h1]
      dsimp only
      rw [h2]
    · intro hsp
      rw [hbase, hsp]
      simp [exceptOk]
    · intro hlen
      rw [hbase]
      rcases hsp : splitComma tok with _ | ⟨a1, _ | ⟨a2, _ | ⟨a3, rest⟩⟩⟩ <;>
        rw [hsp] at hlen <;> simp at hlen
      simp [exceptOk]

/-- Witness for C6 at concrete header lines of each shape. -/
theorem c6_hunk_header_shapes_witness :
    parse_unified_diff "@@ -1,2 +1,3 @@" = Except.ok (1, some 3) ∧
    parse_unified_diff "@@ -1 +7 @@" = Except.ok (7, none) ∧
    exceptOk (parse_unified_diff "xx") = false ∧
    exceptOk (parse_unified_diff "@@ -1 +1,2,3 @@") = false := by
  refine ⟨?_, ?_, ?_, ?_⟩
  · exact ((c6_hunk_header_shapes "@@ -1,2 +1,3 @@").2 "+1,3" rfl rfl).2.1
      "+1" "3" 1 3 rfl rfl rfl
  · exact ((c6_hunk_header_shapes "@@ -1 +7 @@").2 "+7" rfl rfl).1 "+7" 7 rfl rfl
  · exact (c6_hunk_header_shapes "xx").1 rfl
  · exact ((c6_hunk_header_shapes "@@ -1 +1,2,3 @@").2 "+1,2,3" rfl rfl).2.2.2 (by decide)

/-- C8 counterexample: a patch whose first line is a valid hunk header but
whose body contains an empty line makes the parse raise IndexError when the
first character of the empty line is read, so body parsing is not
error-free for every line shape. -/
theorem c8_empty_line_counterexample :
    parse_unified_diff "@@ -1 +1 @@" = Except.ok (1, none) ∧
    parse_patch "a.py" (some "@@ -1 +1 @@\n\n") = Except.error PyError.indexError :=
  ⟨rfl, rfl⟩

/-- C8 amended: the body loop never raises provided every body line is
non-empty and every body line carrying the hunk marker parses as a valid
header; a non-empty body line whose first character is neither a plus nor a
minus (and which does not carry the marker) is treated as a context line,
advancing both offsets and recording nothing. -/
theorem c8_body_permissive (fn : String) (ls : List String) (s : ParseState)
    (h : ∀ l ∈ ls, l.toList ≠ [] ∧
        (strStartsWith l "@@ " = true → exceptOk (parse_unified_diff l) = true)) :
    exceptOk (parseBody fn s ls) = true ∧
    (∀ (t : ParseState) (l : String) (c : Char) (cs : List Char),
        l.toList = c :: cs → c ≠ '+' → c ≠ '-' → strStartsWith l "@@ " = false →
        parseLine fn t l = Except.ok { t with line_offset := t.line_offset + 1,
                                              position_offset := t.position_offset + 1 }) := by
  constructor
  · induction ls generalizing s with
    | nil => simp [parseBody, exceptOk]
    | cons l ls ih =>
      have hl := h l (by simp)
      have hok := parseLine_ok fn s l hl.1 hl.2
      simp only [parseBody]
      cases hpl : parseLine fn s l with
      | error e => rw [hpl] at hok; simp [exceptOk] at hok
      | ok s1 => exact ih s1 (fun l2 hl2 => h l2 (List.mem_cons_of_mem _ hl2))
  · intro t l c cs hl hplus hminus hsw
    exact parseLine_context fn t l c cs hl hplus hminus hsw

/-- Witness for the amended C8: a concrete body with a context line, a
removed line, an added line, a further hunk header and an odd-shaped line,
plus the context treatment of the odd-shaped line. -/
theorem c8_body_permissive_witness :
    exceptOk (parseBody "a.py" (initState 1)
      [" ctx", "-del", "+add", "@@ -3,1 +4,1 @@", "?odd"]) = true ∧
    parseLine "a.py" (initState 1) "?odd"
      = Except.ok { initState 1 with line_offset := 1, position_offset := 1 } := by
  have h := c8_body_permissive "a.py" [" ctx", "-del", "+add", "@@ -3,1 +4,1 @@", "?odd"]
    (initState 1) (by decide)
  exact ⟨h.1, h.2 (initState 1) "?odd" '?' ['o', 'd', 'd'] rfl (by decide) (by decide) rfl⟩

/-- C5 amended: after a successful parse, provided no two recorded added
lines share a line number (as with the disjoint increasing hunks of a
well-formed diff), the three dictionaries agree on every recorded added
line: positions_by_line sends its line number to its position, and
modified_lines and modified_positions hold the same classified line under
the line number and the position respectively. -/
theorem c5_agreement_of_distinct_lines (fn p : String) (s : ParseState)
    (hp : parse_patch fn (some p) = Except.ok s)
    (hnd : (s.recorded.map (fun t => t.1)).Nodup) :
    ∀ t ∈ s.recorded,
      dictGet s.positions_by_line t.1 = some t.2.1 ∧
      dictGet s.modified_lines t.1 = some t.2.2 ∧
      dictGet s.modified_positions t.2.1 = some t.2.2 := by
  unfold parse_patch at hp
  dsimp only at hp
  by_cases hpe : p = ""
  · rw [if_pos hpe] at hp
    simp only [Except.ok.injEq] at hp
    subst hp
    intro t ht
    simp [initState] at ht
  · rw [if_neg hpe] at hp
    cases hsp : splitlines p with
    | nil => rw [hsp] at hp; cases hp
    | cons l0 body =>
      rw [hsp] at hp
      dsimp only at hp
      cases hpu : parse_unified_diff l0 with
      | error e => rw [hpu] at hp; cases hp
      | ok v =>
        rw [hpu] at hp
        obtain ⟨st, cnt⟩ := v
        have hinit1 : ∀ t ∈ (initState st).recorded, t.2.1 ≤ (initState st).position_offset := by
          intro t ht
          simp [initState] at ht
        have hinit2 : ∀ t ∈ (initState st).recorded, agreesAt (initState st) t := by
          intro t ht
          simp [initState] at ht
        have := parseBody_inv fn body (initState st) s hp hinit1 hinit2 hnd
        exact fun t ht => (this.2 t ht)

/-- Witness for the amended C5 on the end-to-end example state, whose single
recorded line trivially has distinct line numbers. -/
theorem c5_agreement_of_distinct_lines_witness :
    dictGet pyExampleState.positions_by_line 2 = some 2 ∧
    dictGet pyExampleState.modified_lines 2 = some (SourceCodeLine.py "    def bar():") ∧
    dictGet pyExampleState.modified_positions 2 = some (SourceCodeLine.py "    def bar():") :=
  c5_agreement_of_distinct_lines "f.py" pyExamplePatch pyExampleState rfl (by decide)
    (2, 2, SourceCodeLine.py "    def bar():") (by decide)

/-- C10: for the Python dialect, every line matched by the test-definition
pattern is also matched by the function-definition pattern, since the test
pattern is the function pattern with the identifier constrained to start
with the test_ characters, all of which are identifier characters. -/
theorem c10_test_implies_function (text : String)
    (h : SourceCodeLine.is_test_definition (SourceCodeLine.py text) = true) :
    SourceCodeLine.is_function_definition (SourceCodeLine.py text) = true := by
  simp only [SourceCodeLine.is_test_definition] at h
  simp only [SourceCodeLine.is_function_definition]
  unfold pyTestDefMatch at h
  unfold pyFuncDefMatch
  cases hst : stripLit "def test_".toList (text.toList.dropWhile isPySpace) with
  | none => rw [hst] at h; cases h
  | some r =>
    rw [hst] at h
    dsimp only at h
    have hl2 := stripLit_eq_append "def test_".toList (text.toList.dropWhile isPySpace) r hst
    have h2 : stripLit "def ".toList (text.toList.dropWhile isPySpace)
        = some ('t' :: 'e' :: 's' :: 't' :: '_' :: r) := by
      rw [hl2]
      exact stripLit_append_self "def ".toList ('t' :: 'e' :: 's' :: 't' :: '_' :: r)
    rw [h2]
    dsimp only
    have htw : ('t' :: 'e' :: 's' :: 't' :: '_' :: r).takeWhile isPyIdent
        = 't' :: 'e' :: 's' :: 't' :: '_' :: r.takeWhile isPyIdent := rfl
    have hdw : ('t' :: 'e' :: 's' :: 't' :: '_' :: r).dropWhile isPyIdent
        = r.dropWhile isPyIdent := rfl
    rw [htw, hdw]
    rw [Bool.and_eq_true] at h
    simp only [List.isEmpty_cons, Bool.not_false, Bool.true_and]
    exact h.2

/-- Witness for C10 at a concrete test definition line. -/
theorem c10_test_implies_function_witness :
    SourceCodeLine.is_test_definition (SourceCodeLine.py "def test_foo():") = true ∧
    SourceCodeLine.is_function_definition (SourceCodeLine.py "def test_foo():") = true :=
  ⟨rfl, c10_test_implies_function "def test_foo():" rfl⟩
